import Mathlib

/-!
Shallow embedding of the brightyorcerf/rate-limiter token-bucket rate
limiter (JavaScript) and proofs about its claims.

Modelling conventions:
- JavaScript numbers are modelled as rationals `ℚ` (the code only performs
  field arithmetic, `Math.min`, `Math.floor`, `Math.ceil` on them).
- Timestamps (`Date.now()` milliseconds) are modelled as integers `ℤ` and
  made explicit parameters: each call that reads the ambient clock takes a
  `now` argument.  The several `Date.now()` reads inside one
  `checkLimit` call are modelled as one instant, matching the
  single-instant evaluation contract of the specification.
- Mutation of `this` is modelled by explicit state passing: a method that
  mutates the bucket returns the updated bucket alongside its JS return
  value.
- The identifier-to-bucket `Map` (and the Redis keyspace) is modelled as a
  function `String → Option _`.
-/

/-- Bucket state of `class TokenBucket` in `src/src/algorithms/tokenBucket.js`:
fields `capacity`, `refillRate`, `tokens`, `lastRefill`. -/
structure TokenBucket where
  capacity : ℚ
  refillRate : ℚ
  tokens : ℚ
  lastRefill : ℤ
deriving Repr, DecidableEq

/-- Embeds the `TokenBucket` constructor: `this.tokens = capacity;
this.lastRefill = Date.now()`, with `Date.now()` passed in as `now`. -/
def TokenBucket.create (capacity refillRate : ℚ) (now : ℤ) : TokenBucket :=
  { capacity := capacity, refillRate := refillRate, tokens := capacity, lastRefill := now }

/-- Embeds `TokenBucket.refill`:
`timePassed = (now - this.lastRefill) / 1000`;
`tokensToAdd = timePassed * this.refillRate`;
`this.tokens = Math.min(this.capacity, this.tokens + tokensToAdd)`;
`this.lastRefill = now`.  Note the source does not clamp a negative
`timePassed`. -/
def TokenBucket.refill (b : TokenBucket) (now : ℤ) : TokenBucket :=
  let timePassed : ℚ := ((now : ℚ) - (b.lastRefill : ℚ)) / 1000
  let tokensToAdd : ℚ := timePassed * b.refillRate
  { b with tokens := min b.capacity (b.tokens + tokensToAdd), lastRefill := now }

/-- Embeds `TokenBucket.consume(tokens = 1)`: refill, then admit and subtract
iff `this.tokens >= tokens`.  Returns the updated bucket and the JS boolean
return value. -/
def TokenBucket.consume (b : TokenBucket) (tokensRequested : ℚ) (now : ℤ) :
    TokenBucket × Bool :=
  let b1 := b.refill now
  if tokensRequested ≤ b1.tokens then
    ({ b1 with tokens := b1.tokens - tokensRequested }, true)
  else
    (b1, false)

/-- JavaScript remainder `x % 1` (truncated toward zero), used by
`getState`. -/
def jsRemOne (x : ℚ) : ℚ :=
  if 0 ≤ x then x - (⌊x⌋ : ℚ) else x - (⌈x⌉ : ℚ)

/-- Return value of `TokenBucket.getState`. -/
structure BucketStateView where
  tokens : ℤ
  capacity : ℚ
  refillRate : ℚ
  timeUntilRefill : ℚ
deriving Repr, DecidableEq

/-- Embeds `TokenBucket.getState`: refills, then reports
`Math.floor(this.tokens)` and
`timeUntilRefill = tokens < capacity ? ((1 - (tokens % 1)) / refillRate) * 1000 : 0`. -/
def TokenBucket.getState (b : TokenBucket) (now : ℤ) : TokenBucket × BucketStateView :=
  let b1 := b.refill now
  ( b1,
    { tokens := ⌊b1.tokens⌋
      capacity := b1.capacity
      refillRate := b1.refillRate
      timeUntilRefill :=
        if b1.tokens < b1.capacity then ((1 - jsRemOne b1.tokens) / b1.refillRate) * 1000
        else 0 } )

/-- Embeds `TokenBucket.getRetryAfter(needed = 1)`: refills, returns `0` if
`this.tokens >= needed`, else `Math.ceil(((needed - tokens) / refillRate) * 1000)`. -/
def TokenBucket.getRetryAfter (b : TokenBucket) (needed : ℚ) (now : ℤ) :
    TokenBucket × ℤ :=
  let b1 := b.refill now
  if needed ≤ b1.tokens then (b1, 0)
  else
    let tokensNeeded := needed - b1.tokens
    let secondsNeeded := tokensNeeded / b1.refillRate
    (b1, ⌈secondsNeeded * 1000⌉)

/-- Options record destructured by `checkLimit`:
`const { capacity, refillRate, tokens = 1 } = options`. -/
structure LimitOptions where
  capacity : ℚ
  refillRate : ℚ
  tokens : ℚ := 1
deriving Repr, DecidableEq

/-- Result object of `MemoryStore.checkLimit`
(`{ allowed, remaining, retryAfter, limit, resetTime }`). -/
structure LimitResult where
  allowed : Bool
  remaining : ℤ
  retryAfter : ℤ
  limit : ℚ
  resetTime : ℚ
deriving Repr, DecidableEq

/-- State of `class MemoryStore` in `src/storage/memoryStore.js`: the
`Map` of identifier to `TokenBucket`, modelled as a function. -/
structure MemoryStore where
  buckets : String → Option TokenBucket

/-- A `MemoryStore` as built by its constructor: an empty `Map`. -/
def MemoryStore.empty : MemoryStore := ⟨fun _ => none⟩

/-- Embeds `MemoryStore.getBucket`: return the existing bucket if present
(ignoring the passed `capacity`/`refillRate`), else create and insert
`new TokenBucket(capacity, refillRate)`. -/
def MemoryStore.getBucket (s : MemoryStore) (identifier : String)
    (capacity refillRate : ℚ) (now : ℤ) : TokenBucket × MemoryStore :=
  match s.buckets identifier with
  | some b => (b, s)
  | none =>
    let b := TokenBucket.create capacity refillRate now
    (b, ⟨fun k => if k = identifier then some b else s.buckets k⟩)

/-- The bucket that actually governs a `checkLimit` call: the stored one if
present, else the freshly created one. -/
def MemoryStore.governingBucket (s : MemoryStore) (identifier : String)
    (options : LimitOptions) (now : ℤ) : TokenBucket :=
  (s.getBucket identifier options.capacity options.refillRate now).1

/-- Embeds `MemoryStore.checkLimit`: get-or-create the bucket, `consume`,
`getState`, and build `{ allowed, remaining: Math.floor(state.tokens),
retryAfter: allowed ? 0 : bucket.getRetryAfter(tokens), limit: capacity,
resetTime: Date.now() + (state.timeUntilRefill || 0) }`.  The bucket object
is mutated in place in JS, so the map holds the final bucket. -/
def MemoryStore.checkLimit (s : MemoryStore) (identifier : String)
    (options : LimitOptions) (now : ℤ) : LimitResult × MemoryStore :=
  let p := s.getBucket identifier options.capacity options.refillRate now
  let c := p.1.consume options.tokens now
  let g := c.1.getState now
  let r := if c.2 then (g.1, (0 : ℤ)) else g.1.getRetryAfter options.tokens now
  ( { allowed := c.2
      remaining := ⌊(g.2.tokens : ℚ)⌋
      retryAfter := r.2
      limit := options.capacity
      resetTime := (now : ℚ) + g.2.timeUntilRefill }
  , ⟨fun k => if k = identifier then some r.1 else p.2.buckets k⟩ )

/-- Embeds `MemoryStore.reset`: `this.buckets.delete(identifier)`. -/
def MemoryStore.reset (s : MemoryStore) (identifier : String) : MemoryStore :=
  ⟨fun k => if k = identifier then none else s.buckets k⟩

/-- Embeds `MemoryStore.resetAll`: `this.buckets.clear()`. -/
def MemoryStore.resetAll (_s : MemoryStore) : MemoryStore := MemoryStore.empty

/-- Keyspace of the shared (Redis) store: each key holds the hash fields
`tokens` and `last_refill`, modelled as a `ℚ × ℤ` pair. -/
structure RedisState where
  entries : String → Option (ℚ × ℤ)

/-- An empty Redis keyspace. -/
def RedisState.empty : RedisState := ⟨fun _ => none⟩

/-- Embeds the read-or-initialize prefix of the Lua script in
`RedisStore.checkLimit`: `HMGET key tokens last_refill`, and
`if not tokens then tokens = capacity; last_refill = now end`. -/
def RedisState.readBucket (st : RedisState) (key : String) (capacity : ℚ)
    (now : ℤ) : ℚ × ℤ :=
  match st.entries key with
  | some tl => tl
  | none => (capacity, now)

/-- Array `{allowed, math.floor(tokens), retry_after}` returned by the Lua
script. -/
structure LuaReply where
  allowed : ℤ
  remaining : ℤ
  retryAfter : ℤ
deriving Repr, DecidableEq

/-- Embeds the atomic Lua script of `RedisStore.checkLimit`
(`src/unnamed/part_003`): read or initialize the bucket,
`time_passed = (now - last_refill) / 1000`,
`tokens = math.min(capacity, tokens + time_passed * refill_rate)`,
consume iff `tokens >= tokens_requested`, write back
`(tokens, now)` (the `EXPIRE` TTL is not part of the value state),
and compute `retry_after = allowed == 0 and
math.ceil(((tokens_requested - tokens) / refill_rate) * 1000) or 0`.
Returns the reply array and the updated keyspace. -/
def luaCheckAndConsume (st : RedisState) (key : String)
    (capacity refillRate tokensRequested : ℚ) (now : ℤ) :
    LuaReply × RedisState :=
  let init := st.readBucket key capacity now
  let timePassed : ℚ := ((now : ℚ) - (init.2 : ℚ)) / 1000
  let tokensToAdd : ℚ := timePassed * refillRate
  let tokens1 : ℚ := min capacity (init.1 + tokensToAdd)
  let step : ℚ × ℤ :=
    if tokensRequested ≤ tokens1 then (tokens1 - tokensRequested, 1) else (tokens1, 0)
  let retryAfter : ℤ :=
    if step.2 = 0 then ⌈(tokensRequested - step.1) / refillRate * 1000⌉ else 0
  ( { allowed := step.2, remaining := ⌊step.1⌋, retryAfter := retryAfter },
    ⟨fun k => if k = key then some (step.1, now) else st.entries k⟩ )

/-- The refilled (pre-consumption) token count computed inside the Lua
script. -/
def luaRefilledTokens (st : RedisState) (key : String)
    (capacity refillRate : ℚ) (now : ℤ) : ℚ :=
  let init := st.readBucket key capacity now
  min capacity (init.1 + ((now : ℚ) - (init.2 : ℚ)) / 1000 * refillRate)

/-- Result object of `RedisStore.checkLimit`; `remaining` is a raw JS
number because the fail-open branch returns the unfloored `capacity`. -/
structure RedisResult where
  allowed : Bool
  remaining : ℚ
  retryAfter : ℤ
  limit : ℚ
  resetTime : ℚ
deriving Repr, DecidableEq

/-- Error raised by `RedisStore.connect` when the remote store is
unreachable (the `catch` block rethrows). -/
inductive RedisError
  | connectFailed
deriving Repr, DecidableEq

/-- Embeds `RedisStore.checkLimit` including its failure behaviour.
`isConnected` is the store flag; `connectOk` says whether a connect
attempt would succeed; `evalOk` says whether the atomic script round trip
succeeds.  The source awaits `this.connect()` OUTSIDE the try/catch, so a
failed connect propagates as an error; only an `eval` failure is caught
and answered with the fail-open result `{ allowed: true, remaining:
capacity, retryAfter: 0, limit: capacity, resetTime: now }`. -/
def RedisStore.checkLimit (isConnected connectOk evalOk : Bool)
    (st : RedisState) (keyPref identifier : String)
    (options : LimitOptions) (now : ℤ) :
    Except RedisError (RedisResult × RedisState) :=
  if isConnected = false ∧ connectOk = false then
    .error .connectFailed
  else
    let key := keyPref ++ identifier
    if evalOk then
      let p := luaCheckAndConsume st key options.capacity options.refillRate options.tokens now
      .ok ( { allowed := p.1.allowed == 1
              remaining := (p.1.remaining : ℚ)
              retryAfter := p.1.retryAfter
              limit := options.capacity
              resetTime := (now : ℚ) + (p.1.retryAfter : ℚ) }
          , p.2 )
    else
      .ok ( { allowed := true
              remaining := options.capacity
              retryAfter := 0
              limit := options.capacity
              resetTime := (now : ℚ) }
          , st )

/-- Embeds `RedisStore.reset`: `DEL` of the namespaced key. -/
def RedisStore.reset (st : RedisState) (keyPref identifier : String) : RedisState :=
  ⟨fun k => if k = keyPref ++ identifier then none else st.entries k⟩

/-- Outcome of the Express middleware in `src/unnamed/part_002`: either the
request is passed on (`next()`) or answered with 429 and a `Retry-After`
header of `Math.ceil(result.retryAfter / 1000)` seconds. -/
inductive MiddlewareOutcome
  | next
  | reject (retryAfterSeconds : ℤ) (limit : ℚ)
deriving Repr, DecidableEq

/-- Embeds `rateLimiterMiddleware` over the in-memory store: skip check,
missing-identifier check (which only warns and calls `next()`), then
`store.checkLimit` and the allowed/429 branch. -/
def rateLimiterMiddleware (skip : Bool) (clientId : Option String)
    (store : MemoryStore) (capacity refillRate : ℚ) (now : ℤ) :
    MiddlewareOutcome × MemoryStore :=
  if skip then (.next, store)
  else
    match clientId with
    | none => (.next, store)
    | some identifier =>
      let p := store.checkLimit identifier
        { capacity := capacity, refillRate := refillRate, tokens := 1 } now
      if p.1.allowed then (.next, p.2)
      else (.reject ⌈(p.1.retryAfter : ℚ) / 1000⌉ p.1.limit, p.2)

/-- Operations that mutate a `TokenBucket` through its public methods. -/
inductive BucketOp
  | refillOp (now : ℤ)
  | consumeOp (tokensRequested : ℚ) (now : ℤ)
deriving Repr, DecidableEq

/-- Observation time of an operation. -/
def BucketOp.time : BucketOp → ℤ
  | .refillOp now => now
  | .consumeOp _ now => now

/-- Apply one operation to a bucket. -/
def TokenBucket.apply (b : TokenBucket) : BucketOp → TokenBucket
  | .refillOp now => b.refill now
  | .consumeOp trq now => (b.consume trq now).1

/-- Run a sequence of operations left to right. -/
def TokenBucket.run (b : TokenBucket) : List BucketOp → TokenBucket
  | [] => b
  | op :: ops => (b.apply op).run ops

/-- All consume operations in the list request a positive token count. -/
def requestsPositive : List BucketOp → Bool
  | [] => true
  | .refillOp _ :: ops => requestsPositive ops
  | .consumeOp trq _ :: ops => decide (0 < trq) && requestsPositive ops

/-- The operation times never move backward, starting from time `t`. -/
def chronologicalFrom (t : ℤ) : List BucketOp → Bool
  | [] => true
  | op :: ops => decide (t ≤ op.time) && chronologicalFrom op.time ops

/-- Invariant required of a bucket by the specification:
`0 ≤ tokens ≤ capacity`. -/
def TokenBucket.withinCapacity (b : TokenBucket) : Prop :=
  0 ≤ b.tokens ∧ b.tokens ≤ b.capacity

instance (b : TokenBucket) : Decidable b.withinCapacity := by
  unfold TokenBucket.withinCapacity
  infer_instance

/-- The token count the Lua script writes back: the refilled count, minus
the request when admitted. -/
def luaNewTokens (st : RedisState) (key : String)
    (capacity refillRate trq : ℚ) (now : ℤ) : ℚ :=
  if trq ≤ luaRefilledTokens st key capacity refillRate now then
    luaRefilledTokens st key capacity refillRate now - trq
  else
    luaRefilledTokens st key capacity refillRate now

theorem TokenBucket.refill_same_time (b : TokenBucket) (now : ℤ) (h : b.lastRefill = now) :
    b.refill now = { b with tokens := min b.capacity b.tokens, lastRefill := now } := by
  subst h
  unfold TokenBucket.refill
  simp

theorem TokenBucket.refill_refill (b : TokenBucket) (now : ℤ) :
    (b.refill now).refill now = b.refill now := by
  rw [TokenBucket.refill_same_time _ now rfl]
  unfold TokenBucket.refill
  simp [min_eq_right (min_le_left b.capacity _)]

theorem TokenBucket.consume_of_le (b : TokenBucket) (trq : ℚ) (now : ℤ)
    (h : trq ≤ (b.refill now).tokens) :
    b.consume trq now = ({ b.refill now with tokens := (b.refill now).tokens - trq }, true) := by
  unfold TokenBucket.consume
  simp [h]

theorem TokenBucket.consume_of_gt (b : TokenBucket) (trq : ℚ) (now : ℤ)
    (h : (b.refill now).tokens < trq) :
    b.consume trq now = (b.refill now, false) := by
  unfold TokenBucket.consume
  simp [not_le.2 h]

theorem MemoryStore.checkLimit_allowed_iff (s : MemoryStore) (identifier : String)
    (options : LimitOptions) (now : ℤ) :
    ((s.checkLimit identifier options now).1.allowed = true) ↔
      options.tokens ≤ ((s.governingBucket identifier options now).refill now).tokens := by
  unfold MemoryStore.checkLimit MemoryStore.governingBucket
  rcases le_or_lt options.tokens
      (((s.getBucket identifier options.capacity options.refillRate now).1.refill now).tokens)
    with h | h
  · simp [TokenBucket.consume_of_le _ _ _ h, h]
  · simp [TokenBucket.consume_of_gt _ _ _ h, not_le.2 h, h.not_le]

theorem MemoryStore.checkLimit_limit (s : MemoryStore) (identifier : String)
    (options : LimitOptions) (now : ℤ) :
    (s.checkLimit identifier options now).1.limit = options.capacity := rfl

theorem MemoryStore.checkLimit_retryAfter_of_admitted (s : MemoryStore) (identifier : String)
    (options : LimitOptions) (now : ℤ)
    (h : options.tokens ≤ ((s.governingBucket identifier options now).refill now).tokens) :
    (s.checkLimit identifier options now).1.retryAfter = 0 := by
  unfold MemoryStore.checkLimit MemoryStore.governingBucket at *
  simp [TokenBucket.consume_of_le _ _ _ h]

theorem TokenBucket.refill_capacity (b : TokenBucket) (now : ℤ) :
    (b.refill now).capacity = b.capacity := rfl

theorem TokenBucket.refill_refillRate (b : TokenBucket) (now : ℤ) :
    (b.refill now).refillRate = b.refillRate := rfl

theorem TokenBucket.refill_tokens_le (b : TokenBucket) (now : ℤ) :
    (b.refill now).tokens ≤ b.capacity :=
  min_le_left _ _

theorem TokenBucket.getState_fst (b : TokenBucket) (now : ℤ) :
    (b.getState now).1 = b.refill now := rfl

theorem TokenBucket.getRetryAfter_of_lt (b : TokenBucket) (needed : ℚ) (now : ℤ)
    (h : (b.refill now).tokens < needed) :
    (b.getRetryAfter needed now).2
      = ⌈(needed - (b.refill now).tokens) / (b.refill now).refillRate * 1000⌉ := by
  unfold TokenBucket.getRetryAfter
  simp [not_le.2 h]

theorem MemoryStore.checkLimit_retryAfter_of_rejected (s : MemoryStore) (identifier : String)
    (options : LimitOptions) (now : ℤ)
    (h : ((s.governingBucket identifier options now).refill now).tokens < options.tokens) :
    (s.checkLimit identifier options now).1.retryAfter
      = ⌈(options.tokens - ((s.governingBucket identifier options now).refill now).tokens)
          / (s.governingBucket identifier options now).refillRate * 1000⌉ := by
  unfold MemoryStore.checkLimit MemoryStore.governingBucket at *
  simp only [TokenBucket.consume_of_gt _ _ _ h, TokenBucket.getState_fst, TokenBucket.refill_refill]
  simp only [Bool.false_eq_true, if_false]
  rw [TokenBucket.getRetryAfter_of_lt]
  · rw [TokenBucket.refill_refill, TokenBucket.refill_refillRate]
  · rw [TokenBucket.refill_refill]
    exact h

theorem MemoryStore.checkLimit_remaining_of_rejected (s : MemoryStore) (identifier : String)
    (options : LimitOptions) (now : ℤ)
    (h : ((s.governingBucket identifier options now).refill now).tokens < options.tokens) :
    (s.checkLimit identifier options now).1.remaining
      = ⌊((s.governingBucket identifier options now).refill now).tokens⌋ := by
  unfold MemoryStore.checkLimit MemoryStore.governingBucket at *
  simp only [TokenBucket.consume_of_gt _ _ _ h, TokenBucket.getState_fst]
  unfold TokenBucket.getState
  simp [TokenBucket.refill_refill, Int.floor_intCast]

theorem MemoryStore.checkLimit_remaining_of_admitted (s : MemoryStore) (identifier : String)
    (options : LimitOptions) (now : ℤ)
    (h : options.tokens ≤ ((s.governingBucket identifier options now).refill now).tokens)
    (h0 : 0 ≤ options.tokens) :
    (s.checkLimit identifier options now).1.remaining
      = ⌊((s.governingBucket identifier options now).refill now).tokens - options.tokens⌋ := by
  unfold MemoryStore.checkLimit MemoryStore.governingBucket at *
  simp only [TokenBucket.consume_of_le _ _ _ h, TokenBucket.getState_fst]
  unfold TokenBucket.getState
  rw [TokenBucket.refill_same_time _ now rfl]
  have hle : ((s.getBucket identifier options.capacity options.refillRate now).1.refill now).tokens
      - options.tokens
      ≤ ((s.getBucket identifier options.capacity options.refillRate now).1.refill now).capacity := by
    rw [TokenBucket.refill_capacity]
    have := TokenBucket.refill_tokens_le (s.getBucket identifier options.capacity options.refillRate now).1 now
    linarith
  simp [min_eq_right hle, Int.floor_intCast]

theorem TokenBucket.refill_tokens_eq (b : TokenBucket) (now : ℤ) :
    (b.refill now).tokens
      = min b.capacity (b.tokens + ((now : ℚ) - (b.lastRefill : ℚ)) / 1000 * b.refillRate) := rfl

theorem TokenBucket.refill_withinCapacity (b : TokenBucket) (now : ℤ)
    (hb : b.withinCapacity) (hr : 0 ≤ b.refillRate) (ht : b.lastRefill ≤ now) :
    (b.refill now).withinCapacity := by
  obtain ⟨h0, hc⟩ := hb
  have hadd : 0 ≤ ((now : ℚ) - (b.lastRefill : ℚ)) / 1000 * b.refillRate := by
    apply mul_nonneg
    · apply div_nonneg _ (by norm_num)
      have hcast : (b.lastRefill : ℚ) ≤ (now : ℚ) := by exact_mod_cast ht
      linarith
    · exact hr
  constructor
  · rw [TokenBucket.refill_tokens_eq]
    exact le_min (le_trans h0 hc) (by linarith)
  · rw [show (b.refill now).capacity = b.capacity from rfl, TokenBucket.refill_tokens_eq]
    exact min_le_left _ _

theorem TokenBucket.consume_withinCapacity (b : TokenBucket) (trq : ℚ) (now : ℤ)
    (hb : b.withinCapacity) (hr : 0 ≤ b.refillRate) (ht : b.lastRefill ≤ now)
    (htrq : 0 ≤ trq) :
    ((b.consume trq now).1).withinCapacity := by
  have hw := TokenBucket.refill_withinCapacity b now hb hr ht
  rcases le_or_lt trq (b.refill now).tokens with h | h
  · rw [TokenBucket.consume_of_le _ _ _ h]
    constructor
    · simpa using sub_nonneg.2 h
    · have h2 := hw.2
      simp only
      linarith
  · rw [TokenBucket.consume_of_gt _ _ _ h]
    exact hw

theorem TokenBucket.apply_lastRefill (b : TokenBucket) (op : BucketOp) :
    (b.apply op).lastRefill = op.time := by
  cases op with
  | refillOp now => rfl
  | consumeOp trq now =>
    show ((b.consume trq now).1).lastRefill = now
    simp only [TokenBucket.consume]
    split <;> rfl

theorem TokenBucket.apply_refillRate (b : TokenBucket) (op : BucketOp) :
    (b.apply op).refillRate = b.refillRate := by
  cases op with
  | refillOp now => rfl
  | consumeOp trq now =>
    show ((b.consume trq now).1).refillRate = b.refillRate
    simp only [TokenBucket.consume]
    split <;> rfl

theorem TokenBucket.apply_withinCapacity (b : TokenBucket) (op : BucketOp)
    (hb : b.withinCapacity) (hr : 0 ≤ b.refillRate) (ht : b.lastRefill ≤ op.time)
    (hpos : ∀ trq now, op = .consumeOp trq now → 0 ≤ trq) :
    (b.apply op).withinCapacity := by
  cases op with
  | refillOp now => exact TokenBucket.refill_withinCapacity b now hb hr ht
  | consumeOp trq now =>
    exact TokenBucket.consume_withinCapacity b trq now hb hr ht (hpos trq now rfl)

theorem TokenBucket.run_withinCapacity (ops : List BucketOp) (b : TokenBucket)
    (hb : b.withinCapacity) (hr : 0 ≤ b.refillRate)
    (hpos : requestsPositive ops = true)
    (hchron : chronologicalFrom b.lastRefill ops = true) :
    (b.run ops).withinCapacity := by
  induction ops generalizing b with
  | nil => exact hb
  | cons op ops ih =>
    unfold chronologicalFrom at hchron
    rw [Bool.and_eq_true, decide_eq_true_iff] at hchron
    obtain ⟨ht, hchron2⟩ := hchron
    have hposop : ∀ trq now, op = .consumeOp trq now → 0 ≤ trq := by
      intro trq now heq
      subst heq
      unfold requestsPositive at hpos
      rw [Bool.and_eq_true, decide_eq_true_iff] at hpos
      exact le_of_lt hpos.1
    have hpos2 : requestsPositive ops = true := by
      cases op with
      | refillOp now => exact hpos
      | consumeOp trq now =>
        unfold requestsPositive at hpos
        rw [Bool.and_eq_true] at hpos
        exact hpos.2
    show ((b.apply op).run ops).withinCapacity
    apply ih (b.apply op)
    · exact TokenBucket.apply_withinCapacity b op hb hr ht hposop
    · rw [TokenBucket.apply_refillRate]
      exact hr
    · exact hpos2
    · rw [TokenBucket.apply_lastRefill]
      exact hchron2

theorem luaCheckAndConsume_of_le (st : RedisState) (key : String)
    (capacity refillRate trq : ℚ) (now : ℤ)
    (h : trq ≤ luaRefilledTokens st key capacity refillRate now) :
    luaCheckAndConsume st key capacity refillRate trq now =
      ( { allowed := 1
          remaining := ⌊luaRefilledTokens st key capacity refillRate now - trq⌋
          retryAfter := 0 },
        ⟨fun k => if k = key
          then some (luaRefilledTokens st key capacity refillRate now - trq, now)
          else st.entries k⟩ ) := by
  unfold luaCheckAndConsume luaRefilledTokens at *
  simp only [if_pos h]
  norm_num

theorem luaCheckAndConsume_of_gt (st : RedisState) (key : String)
    (capacity refillRate trq : ℚ) (now : ℤ)
    (h : luaRefilledTokens st key capacity refillRate now < trq) :
    luaCheckAndConsume st key capacity refillRate trq now =
      ( { allowed := 0
          remaining := ⌊luaRefilledTokens st key capacity refillRate now⌋
          retryAfter :=
            ⌈(trq - luaRefilledTokens st key capacity refillRate now) / refillRate * 1000⌉ },
        ⟨fun k => if k = key
          then some (luaRefilledTokens st key capacity refillRate now, now)
          else st.entries k⟩ ) := by
  unfold luaCheckAndConsume luaRefilledTokens at *
  simp only [if_neg (not_le.2 h)]
  norm_num

theorem luaRefilledTokens_le (st : RedisState) (key : String)
    (capacity refillRate : ℚ) (now : ℤ) :
    luaRefilledTokens st key capacity refillRate now ≤ capacity := by
  unfold luaRefilledTokens
  exact min_le_left _ _

/-- Claim C1 (code bug): the specification requires a refill step observed at
a time earlier than the stored last-refill timestamp to treat the elapsed
time as zero, leaving the stored token count unchanged.  The code in
`TokenBucket.refill` and in the Lua script does not clamp the negative
elapsed time: at `tokens = 5`, `lastRefill = 2000`, `now = 1000`,
`refillRate = 1`, the refill step lowers the stored count from 5 to 4 in
both implementations (the Lua call uses `tokens_requested = 0`, isolating
its refill step). -/
theorem c1_refill_applies_negative_elapsed :
    (((TokenBucket.mk 5 1 5 2000).refill 1000).tokens = 4) ∧
    (((TokenBucket.mk 5 1 5 2000).refill 1000).tokens < (TokenBucket.mk 5 1 5 2000).tokens) ∧
    (((luaCheckAndConsume ⟨fun _ => some (5, 2000)⟩ "k" 5 1 0 1000).2).entries "k"
       = some ((4 : ℚ), (1000 : ℤ))) := by
  refine ⟨?_, ?_, ?_⟩ <;>
    norm_num [TokenBucket.refill, luaCheckAndConsume, RedisState.readBucket]

/-- Claim C2, counterexample: with a backward-moving clock the invariant
`0 ≤ tokens ≤ capacity` fails.  Starting from a fresh bucket of capacity 5
created at time 2000, consuming 5 tokens at time 2000 and then refilling at
time 1000 leaves `tokens = -1`. -/
theorem c2_counterexample :
    (((TokenBucket.create 5 1 2000).run [.consumeOp 5 2000, .refillOp 1000]).tokens = -1) ∧
    ¬ ((TokenBucket.create 5 1 2000).run [.consumeOp 5 2000, .refillOp 1000]).withinCapacity := by
  constructor <;>
    norm_num [TokenBucket.run, TokenBucket.apply, TokenBucket.create, TokenBucket.consume,
      TokenBucket.refill, TokenBucket.withinCapacity]

/-- Claim C2 as amended: for a bucket created with positive capacity and
positive refill rate and any sequence of refill/consume operations with
positive requests whose observation times never move backward, the
invariant `0 ≤ tokens ≤ capacity` holds after the sequence; moreover
consume changes the refilled count exactly by an admitted request (and not
at all when rejected), refill never pushes tokens above capacity, and the
Lua script writes back a token count within `[0, capacity]` whenever the
stored state is nonnegative and not from the future. -/
theorem c2_invariant_chronological (capacity refillRate : ℚ) (now0 : ℤ)
    (ops : List BucketOp) (b : TokenBucket) (trq : ℚ) (now : ℤ)
    (st2 : RedisState) (key : String) (cap2 rate2 trq2 : ℚ) (nowr : ℤ)
    (hcap : 0 < capacity) (hrate : 0 < refillRate)
    (hpos : requestsPositive ops = true)
    (hchron : chronologicalFrom now0 ops = true)
    (hq1 : 0 ≤ (st2.readBucket key cap2 nowr).1)
    (hq2 : (st2.readBucket key cap2 nowr).2 ≤ nowr)
    (hqc : 0 ≤ cap2) (hqr : 0 ≤ rate2) (hqt : 0 ≤ trq2) :
    ((TokenBucket.create capacity refillRate now0).run ops).withinCapacity ∧
    ((b.consume trq now).2 = true →
      ((b.consume trq now).1).tokens = (b.refill now).tokens - trq) ∧
    ((b.consume trq now).2 = false →
      ((b.consume trq now).1).tokens = (b.refill now).tokens) ∧
    ((b.refill now).tokens ≤ b.capacity) ∧
    ((luaCheckAndConsume st2 key cap2 rate2 trq2 nowr).2.entries key
        = some (luaNewTokens st2 key cap2 rate2 trq2 nowr, nowr)) ∧
    (0 ≤ luaNewTokens st2 key cap2 rate2 trq2 nowr) ∧
    (luaNewTokens st2 key cap2 rate2 trq2 nowr ≤ cap2) := by
  have hrl : 0 ≤ luaRefilledTokens st2 key cap2 rate2 nowr := by
    have hd : 0 ≤ ((nowr : ℚ) - ((st2.readBucket key cap2 nowr).2 : ℚ)) / 1000 * rate2 := by
      apply mul_nonneg _ hqr
      apply div_nonneg _ (by norm_num)
      have hcast : ((st2.readBucket key cap2 nowr).2 : ℚ) ≤ (nowr : ℚ) := by exact_mod_cast hq2
      linarith
    unfold luaRefilledTokens
    exact le_min hqc (by linarith)
  have hrle := luaRefilledTokens_le st2 key cap2 rate2 nowr
  refine ⟨?_, ?_, ?_, TokenBucket.refill_tokens_le b now, ?_, ?_, ?_⟩
  · apply TokenBucket.run_withinCapacity
    · exact ⟨le_of_lt hcap, le_refl _⟩
    · exact le_of_lt hrate
    · exact hpos
    · exact hchron
  · intro htrue
    rcases le_or_lt trq (b.refill now).tokens with hle | hgt
    · rw [TokenBucket.consume_of_le _ _ _ hle]
    · rw [TokenBucket.consume_of_gt _ _ _ hgt] at htrue
      simp at htrue
  · intro hfalse
    rcases le_or_lt trq (b.refill now).tokens with hle | hgt
    · rw [TokenBucket.consume_of_le _ _ _ hle] at hfalse
      simp at hfalse
    · rw [TokenBucket.consume_of_gt _ _ _ hgt]
  · unfold luaNewTokens
    rcases le_or_lt trq2 (luaRefilledTokens st2 key cap2 rate2 nowr) with hle | hgt
    · rw [luaCheckAndConsume_of_le st2 key cap2 rate2 trq2 nowr hle, if_pos hle]
      simp
    · rw [luaCheckAndConsume_of_gt st2 key cap2 rate2 trq2 nowr hgt, if_neg (not_le.2 hgt)]
      simp
  · unfold luaNewTokens
    split
    · rename_i hle
      linarith
    · exact hrl
  · unfold luaNewTokens
    split
    · linarith
    · exact hrle

/-- Witness for C2: the amended theorem applied at capacity 3, rate 1, a
three-operation chronological trace, and a fresh Redis key. -/
theorem c2_invariant_chronological_witness :
    ((TokenBucket.create 3 1 0).run
        [.consumeOp 1 0, .consumeOp 1 500, .refillOp 1000]).withinCapacity ∧
    (((TokenBucket.mk 3 1 3 0).consume 1 0).2 = true →
      (((TokenBucket.mk 3 1 3 0).consume 1 0).1).tokens
        = ((TokenBucket.mk 3 1 3 0).refill 0).tokens - 1) ∧
    (((TokenBucket.mk 3 1 3 0).consume 1 0).2 = false →
      (((TokenBucket.mk 3 1 3 0).consume 1 0).1).tokens
        = ((TokenBucket.mk 3 1 3 0).refill 0).tokens) ∧
    (((TokenBucket.mk 3 1 3 0).refill 0).tokens ≤ (TokenBucket.mk 3 1 3 0).capacity) ∧
    ((luaCheckAndConsume RedisState.empty "k" 3 1 1 0).2.entries "k"
        = some (luaNewTokens RedisState.empty "k" 3 1 1 0, 0)) ∧
    (0 ≤ luaNewTokens RedisState.empty "k" 3 1 1 0) ∧
    (luaNewTokens RedisState.empty "k" 3 1 1 0 ≤ 3) :=
  c2_invariant_chronological 3 1 0 [.consumeOp 1 0, .consumeOp 1 500, .refillOp 1000]
    (TokenBucket.mk 3 1 3 0) 1 0 RedisState.empty "k" 3 1 1 0
    (by norm_num) (by norm_num) (by decide) (by decide)
    (by norm_num [RedisState.readBucket, RedisState.empty])
    (by norm_num [RedisState.readBucket, RedisState.empty])
    (by norm_num) (by norm_num) (by norm_num)

/-- Claim C3, counterexample: with no established connection and an
unreachable remote store, `RedisStore.checkLimit` propagates the connect
error to the caller instead of returning the fail-open admitted result
(the `await this.connect()` sits outside the try/catch). -/
theorem c3_counterexample :
    RedisStore.checkLimit false false true RedisState.empty "ratelimit:" "client" ⟨5, 1, 1⟩ 0
      = .error .connectFailed := by
  norm_num [RedisStore.checkLimit]

/-- Claim C3 as amended: when a connection is already established (or can
be established), any failure of the atomic script execution is caught and
answered with the fail-open result: admitted, `remaining = capacity`,
`retryAfterMillis = 0`, and the keyspace unchanged. -/
theorem c3_fail_open_on_script_error (isConnected connectOk : Bool)
    (st : RedisState) (keyPref identifier : String) (options : LimitOptions) (now : ℤ)
    (h : isConnected = true ∨ connectOk = true) :
    RedisStore.checkLimit isConnected connectOk false st keyPref identifier options now
      = .ok ( { allowed := true
                remaining := options.capacity
                retryAfter := 0
                limit := options.capacity
                resetTime := (now : ℚ) }
            , st) := by
  unfold RedisStore.checkLimit
  rcases h with h | h <;> subst h <;> simp

/-- Witness for C3: the amended theorem applied to a connected store whose
script execution fails. -/
theorem c3_fail_open_on_script_error_witness :
    RedisStore.checkLimit true true false RedisState.empty "ratelimit:" "client" ⟨5, 1, 1⟩ 0
      = .ok ( { allowed := true
                remaining := 5
                retryAfter := 0
                limit := 5
                resetTime := 0 }
            , RedisState.empty) :=
  c3_fail_open_on_script_error true true RedisState.empty "ratelimit:" "client" ⟨5, 1, 1⟩ 0
    (Or.inl rfl)

theorem MemoryStore.governingBucket_absent (s : MemoryStore) (identifier : String)
    (options : LimitOptions) (now : ℤ) (h : s.buckets identifier = none) :
    s.governingBucket identifier options now
      = TokenBucket.create options.capacity options.refillRate now := by
  unfold MemoryStore.governingBucket MemoryStore.getBucket
  rw [h]

theorem TokenBucket.create_refill_tokens (capacity refillRate : ℚ) (now : ℤ) :
    ((TokenBucket.create capacity refillRate now).refill now).tokens = capacity := by
  rw [TokenBucket.refill_tokens_eq]
  norm_num [TokenBucket.create]

theorem luaRefilledTokens_absent_eq (st : RedisState) (key : String)
    (capacity refillRate : ℚ) (now : ℤ) (h : st.entries key = none) :
    luaRefilledTokens st key capacity refillRate now = capacity := by
  unfold luaRefilledTokens RedisState.readBucket
  rw [h]
  norm_num

/-- Claim C4 (confirmed): on every admitted call `retryAfterMillis` is 0;
on every rejected call it equals
`ceil(((tokensRequested - refilledTokens) / refillRate) * 1000)`, where
`refilledTokens` is the post-refill token count and `refillRate` the rate
of the governing bucket — in both the memory store and the Lua script. -/
theorem c4_retry_after_formula (s : MemoryStore) (identifier : String)
    (options : LimitOptions) (now : ℤ)
    (st : RedisState) (key : String) (capacity refillRate trq : ℚ) (now2 : ℤ)
    (hmrate : 0 < (s.governingBucket identifier options now).refillRate)
    (hrrate : 0 < refillRate) :
    ((s.checkLimit identifier options now).1.allowed = true →
      (s.checkLimit identifier options now).1.retryAfter = 0) ∧
    ((s.checkLimit identifier options now).1.allowed = false →
      (s.checkLimit identifier options now).1.retryAfter
        = ⌈(options.tokens - ((s.governingBucket identifier options now).refill now).tokens)
            / (s.governingBucket identifier options now).refillRate * 1000⌉) ∧
    ((luaCheckAndConsume st key capacity refillRate trq now2).1.allowed = 1 →
      (luaCheckAndConsume st key capacity refillRate trq now2).1.retryAfter = 0) ∧
    ((luaCheckAndConsume st key capacity refillRate trq now2).1.allowed = 0 →
      (luaCheckAndConsume st key capacity refillRate trq now2).1.retryAfter
        = ⌈(trq - luaRefilledTokens st key capacity refillRate now2) / refillRate * 1000⌉) := by
  refine ⟨?_, ?_, ?_, ?_⟩
  · intro hallow
    exact MemoryStore.checkLimit_retryAfter_of_admitted s identifier options now
      ((MemoryStore.checkLimit_allowed_iff s identifier options now).1 hallow)
  · intro hreject
    have hgt : ((s.governingBucket identifier options now).refill now).tokens < options.tokens := by
      by_contra hle
      have := (MemoryStore.checkLimit_allowed_iff s identifier options now).2 (not_lt.1 hle)
      rw [hreject] at this
      exact Bool.false_ne_true this
    exact MemoryStore.checkLimit_retryAfter_of_rejected s identifier options now hgt
  · intro hallow
    rcases le_or_lt trq (luaRefilledTokens st key capacity refillRate now2) with hle | hgt
    · rw [luaCheckAndConsume_of_le st key capacity refillRate trq now2 hle]
    · rw [luaCheckAndConsume_of_gt st key capacity refillRate trq now2 hgt] at hallow
      simp at hallow
  · intro hreject
    rcases le_or_lt trq (luaRefilledTokens st key capacity refillRate now2) with hle | hgt
    · rw [luaCheckAndConsume_of_le st key capacity refillRate trq now2 hle] at hreject
      simp at hreject
    · rw [luaCheckAndConsume_of_gt st key capacity refillRate trq now2 hgt]

/-- Claim C5, counterexample: the core does not reject bad configuration at
call time.  A request with no identifier is passed through by the
middleware (`next()` after a warning), skipping the limit entirely; and a
`checkLimit` call with capacity 0 silently proceeds, returning an ordinary
undiagnosed result instead of an error. -/
theorem c5_counterexample :
    ((rateLimiterMiddleware false none MemoryStore.empty 5 1 0).1 = .next) ∧
    ((MemoryStore.empty.checkLimit "c" ⟨0, 1, 1⟩ 0).1
      = { allowed := false, remaining := 0, retryAfter := 1000, limit := 0, resetTime := 0 }) := by
  constructor
  · rfl
  · norm_num [MemoryStore.checkLimit, MemoryStore.empty, MemoryStore.getBucket,
      TokenBucket.create, TokenBucket.consume, TokenBucket.refill, TokenBucket.getState,
      TokenBucket.getRetryAfter, jsRemOne]

/-- Claim C5 as amended: the core performs no call-time configuration
validation.  With a missing identifier the middleware skips rate limiting
and passes the request through unchanged; with a non-positive capacity and
a positive request, `checkLimit` proceeds and returns a normal rejection
result rather than a configuration error. -/
theorem c5_no_validation (s s2 : MemoryStore) (identifier : String)
    (options : LimitOptions) (capacity refillRate : ℚ) (now now2 : ℤ)
    (hs : s2.buckets identifier = none) (hcap : options.capacity ≤ 0)
    (htrq : 0 < options.tokens) :
    rateLimiterMiddleware false none s capacity refillRate now = (.next, s) ∧
    (s2.checkLimit identifier options now2).1.allowed = false := by
  constructor
  · rfl
  · rw [← Bool.not_eq_true, Bool.not_eq_true]
    rw [Bool.eq_false_iff]
    intro hallow
    have hle := (MemoryStore.checkLimit_allowed_iff s2 identifier options now2).1 hallow
    rw [MemoryStore.governingBucket_absent s2 identifier options now2 hs,
      TokenBucket.create_refill_tokens] at hle
    linarith

/-- Witness for C5: the amended theorem applied to the empty store with
capacity 0. -/
theorem c5_no_validation_witness :
    rateLimiterMiddleware false none MemoryStore.empty 5 1 0 = (.next, MemoryStore.empty) ∧
    (MemoryStore.empty.checkLimit "c" ⟨0, 1, 1⟩ 0).1.allowed = false :=
  c5_no_validation MemoryStore.empty MemoryStore.empty "c" ⟨0, 1, 1⟩ 5 1 0 0
    rfl (by norm_num) (by norm_num)

/-- Claim C6 (confirmed): the first `checkLimit` call for an unseen
identifier creates a full bucket stamped with the current time, is admitted
iff `tokensRequested ≤ capacity`, and on admission reports
`remaining = floor(capacity - tokensRequested)` — in both the memory store
and the Lua script. -/
theorem c6_first_call (s : MemoryStore) (identifier : String)
    (options : LimitOptions) (now : ℤ)
    (st : RedisState) (key : String) (capacity refillRate trq : ℚ) (now2 : ℤ)
    (hs : s.buckets identifier = none) (hst : st.entries key = none)
    (h0m : 0 ≤ options.tokens) :
    (s.governingBucket identifier options now
        = TokenBucket.create options.capacity options.refillRate now) ∧
    ((s.checkLimit identifier options now).1.allowed = true ↔
        options.tokens ≤ options.capacity) ∧
    (options.tokens ≤ options.capacity →
      (s.checkLimit identifier options now).1.remaining
        = ⌊options.capacity - options.tokens⌋) ∧
    ((luaCheckAndConsume st key capacity refillRate trq now2).1.allowed = 1 ↔
        trq ≤ capacity) ∧
    (trq ≤ capacity →
      (luaCheckAndConsume st key capacity refillRate trq now2).1.remaining
        = ⌊capacity - trq⌋) := by
  have hg := MemoryStore.governingBucket_absent s identifier options now hs
  have hgt : ((s.governingBucket identifier options now).refill now).tokens = options.capacity := by
    rw [hg, TokenBucket.create_refill_tokens]
  have hlua := luaRefilledTokens_absent_eq st key capacity refillRate now2 hst
  refine ⟨hg, ?_, ?_, ?_, ?_⟩
  · rw [MemoryStore.checkLimit_allowed_iff, hgt]
  · intro hadm
    rw [MemoryStore.checkLimit_remaining_of_admitted s identifier options now
      (by rw [hgt]; exact hadm) h0m, hgt]
  · rcases le_or_lt trq capacity with hle | hgt2
    · rw [luaCheckAndConsume_of_le st key capacity refillRate trq now2 (by rw [hlua]; exact hle)]
      simp [hle]
    · rw [luaCheckAndConsume_of_gt st key capacity refillRate trq now2 (by rw [hlua]; exact hgt2)]
      simp [hgt2.not_le]
  · intro hle
    rw [luaCheckAndConsume_of_le st key capacity refillRate trq now2 (by rw [hlua]; exact hle), hlua]

/-- Claim C7 (confirmed): a request strictly larger than the capacity is
rejected from every bucket state and at every observation time — the
refilled token count never exceeds capacity — and the reported
`retryAfterMillis` is strictly positive, in the bucket algorithm, the
memory store, and the Lua script. -/
theorem c7_over_capacity_always_rejected
    (b : TokenBucket) (trqb : ℚ) (nowb : ℤ)
    (s : MemoryStore) (identifier : String) (options : LimitOptions) (now : ℤ)
    (st : RedisState) (key : String) (capacity refillRate trq : ℚ) (now2 : ℤ)
    (hb : b.capacity < trqb) (hbr : 0 < b.refillRate)
    (hm : (s.governingBucket identifier options now).capacity < options.tokens)
    (hmr : 0 < (s.governingBucket identifier options now).refillRate)
    (hc : capacity < trq) (hr : 0 < refillRate) :
    ((b.consume trqb nowb).2 = false ∧
      0 < (((b.consume trqb nowb).1).getRetryAfter trqb nowb).2) ∧
    ((s.checkLimit identifier options now).1.allowed = false ∧
      0 < (s.checkLimit identifier options now).1.retryAfter) ∧
    ((luaCheckAndConsume st key capacity refillRate trq now2).1.allowed = 0 ∧
      0 < (luaCheckAndConsume st key capacity refillRate trq now2).1.retryAfter) := by
  have hbt : (b.refill nowb).tokens < trqb :=
    lt_of_le_of_lt (TokenBucket.refill_tokens_le b nowb) hb
  have hmt : ((s.governingBucket identifier options now).refill now).tokens < options.tokens :=
    lt_of_le_of_lt (TokenBucket.refill_tokens_le _ now) hm
  have hlt : luaRefilledTokens st key capacity refillRate now2 < trq :=
    lt_of_le_of_lt (luaRefilledTokens_le st key capacity refillRate now2) hc
  refine ⟨⟨?_, ?_⟩, ⟨?_, ?_⟩, ?_⟩
  · rw [TokenBucket.consume_of_gt _ _ _ hbt]
  · rw [TokenBucket.consume_of_gt _ _ _ hbt]
    rw [TokenBucket.getRetryAfter_of_lt _ _ _ (by rw [TokenBucket.refill_refill]; exact hbt)]
    rw [TokenBucket.refill_refill]
    apply Int.ceil_pos.2
    apply mul_pos _ (by norm_num)
    apply div_pos (by linarith) hbr
  · rw [Bool.eq_false_iff]
    intro hallow
    exact absurd ((MemoryStore.checkLimit_allowed_iff s identifier options now).1 hallow)
      hmt.not_le
  · rw [MemoryStore.checkLimit_retryAfter_of_rejected s identifier options now hmt]
    apply Int.ceil_pos.2
    apply mul_pos _ (by norm_num)
    apply div_pos (by linarith) hmr
  · rw [luaCheckAndConsume_of_gt st key capacity refillRate trq now2 hlt]
    refine ⟨rfl, ?_⟩
    apply Int.ceil_pos.2
    apply mul_pos _ (by norm_num)
    apply div_pos (by linarith) hr

theorem MemoryStore.checkLimit_fst_congr (s1 s2 : MemoryStore) (identifier : String)
    (options : LimitOptions) (now : ℤ)
    (h : s1.buckets identifier = s2.buckets identifier) :
    (s1.checkLimit identifier options now).1 = (s2.checkLimit identifier options now).1 := by
  unfold MemoryStore.checkLimit MemoryStore.getBucket
  rw [h]
  cases s2.buckets identifier <;> rfl

/-- Claim C8 (confirmed): `reset(identifier)` followed by `checkLimit`
behaves exactly as a first-ever call (same result as on the empty store:
admitted when `tokensRequested ≤ capacity` with
`remaining = floor(capacity - tokensRequested)`); `reset` of an unknown
identifier leaves the store pointwise unchanged and raises no error, and
the Redis `reset` deletes exactly the namespaced key. -/
theorem c8_reset_then_check (s : MemoryStore) (identifier k : String)
    (options : LimitOptions) (now : ℤ)
    (st : RedisState) (keyPref identifier2 k2 : String)
    (h0 : 0 ≤ options.tokens) :
    (((s.reset identifier).checkLimit identifier options now).1
        = (MemoryStore.empty.checkLimit identifier options now).1) ∧
    (options.tokens ≤ options.capacity →
      (((s.reset identifier).checkLimit identifier options now).1.allowed = true ∧
       ((s.reset identifier).checkLimit identifier options now).1.remaining
          = ⌊options.capacity - options.tokens⌋)) ∧
    (s.buckets identifier = none → (s.reset identifier).buckets k = s.buckets k) ∧
    ((RedisStore.reset st keyPref identifier2).entries (keyPref ++ identifier2) = none) ∧
    (st.entries (keyPref ++ identifier2) = none →
      (RedisStore.reset st keyPref identifier2).entries k2 = st.entries k2) := by
  have hreset : (s.reset identifier).buckets identifier = none := by
    unfold MemoryStore.reset
    simp
  have hg := MemoryStore.governingBucket_absent (s.reset identifier) identifier options now hreset
  have hgt : (((s.reset identifier).governingBucket identifier options now).refill now).tokens
      = options.capacity := by
    rw [hg, TokenBucket.create_refill_tokens]
  refine ⟨?_, ?_, ?_, ?_, ?_⟩
  · apply MemoryStore.checkLimit_fst_congr
    rw [hreset]
    rfl
  · intro hle
    constructor
    · rw [MemoryStore.checkLimit_allowed_iff, hgt]
      exact hle
    · rw [MemoryStore.checkLimit_remaining_of_admitted _ _ _ _ (by rw [hgt]; exact hle) h0, hgt]
  · intro hnone
    unfold MemoryStore.reset
    dsimp only
    split
    · rename_i heq
      subst heq
      exact hnone.symm
    · rfl
  · unfold RedisStore.reset
    simp
  · intro hnone
    unfold RedisStore.reset
    dsimp only
    split
    · rename_i heq
      subst heq
      exact hnone.symm
    · rfl

/-- Claim C9 (confirmed): once a bucket exists in the memory store, a later
`checkLimit` ignores the capacity and refill rate passed in the options —
admission, remaining and retry-after are identical for any two option
records with the same request — while the returned `limit` field reflects
the newly passed capacity; the Lua store, by contrast, applies the passed
capacity on every call (same stored state, different capacity, different
admission). -/
theorem c9_stale_config (s : MemoryStore) (identifier : String) (b : TokenBucket)
    (o1 o2 : LimitOptions) (now : ℤ)
    (hb : s.buckets identifier = some b) (ht : o1.tokens = o2.tokens) :
    ((s.checkLimit identifier o1 now).1.allowed = (s.checkLimit identifier o2 now).1.allowed ∧
     (s.checkLimit identifier o1 now).1.remaining = (s.checkLimit identifier o2 now).1.remaining ∧
     (s.checkLimit identifier o1 now).1.retryAfter
        = (s.checkLimit identifier o2 now).1.retryAfter ∧
     (s.checkLimit identifier o1 now).1.limit = o1.capacity ∧
     (s.checkLimit identifier o2 now).1.limit = o2.capacity) ∧
    ((luaCheckAndConsume ⟨fun _ => some (0, 0)⟩ "k" 5 1 7 10000).1.allowed = 0 ∧
     (luaCheckAndConsume ⟨fun _ => some (0, 0)⟩ "k" 20 1 7 10000).1.allowed = 1) := by
  constructor
  · simp [MemoryStore.checkLimit, MemoryStore.getBucket, hb, ht]
  · constructor <;> norm_num [luaCheckAndConsume, RedisState.readBucket]

/-- Witness for C9: a stored bucket of capacity 5 queried with configs of
capacity 100 and 7 produces identical accounting but different `limit`
fields. -/
theorem c9_stale_config_witness :
    (((⟨fun k => if k = "c" then some (TokenBucket.mk 5 1 0 0) else none⟩ : MemoryStore).checkLimit
        "c" ⟨100, 9, 1⟩ 0).1.allowed
      = ((⟨fun k => if k = "c" then some (TokenBucket.mk 5 1 0 0) else none⟩ : MemoryStore).checkLimit
        "c" ⟨7, 3, 1⟩ 0).1.allowed ∧
     ((⟨fun k => if k = "c" then some (TokenBucket.mk 5 1 0 0) else none⟩ : MemoryStore).checkLimit
        "c" ⟨100, 9, 1⟩ 0).1.remaining
      = ((⟨fun k => if k = "c" then some (TokenBucket.mk 5 1 0 0) else none⟩ : MemoryStore).checkLimit
        "c" ⟨7, 3, 1⟩ 0).1.remaining ∧
     ((⟨fun k => if k = "c" then some (TokenBucket.mk 5 1 0 0) else none⟩ : MemoryStore).checkLimit
        "c" ⟨100, 9, 1⟩ 0).1.retryAfter
      = ((⟨fun k => if k = "c" then some (TokenBucket.mk 5 1 0 0) else none⟩ : MemoryStore).checkLimit
        "c" ⟨7, 3, 1⟩ 0).1.retryAfter ∧
     ((⟨fun k => if k = "c" then some (TokenBucket.mk 5 1 0 0) else none⟩ : MemoryStore).checkLimit
        "c" ⟨100, 9, 1⟩ 0).1.limit = 100 ∧
     ((⟨fun k => if k = "c" then some (TokenBucket.mk 5 1 0 0) else none⟩ : MemoryStore).checkLimit
        "c" ⟨7, 3, 1⟩ 0).1.limit = 7) ∧
    ((luaCheckAndConsume ⟨fun _ => some (0, 0)⟩ "k" 5 1 7 10000).1.allowed = 0 ∧
     (luaCheckAndConsume ⟨fun _ => some (0, 0)⟩ "k" 20 1 7 10000).1.allowed = 1) :=
  c9_stale_config ⟨fun k => if k = "c" then some (TokenBucket.mk 5 1 0 0) else none⟩
    "c" (TokenBucket.mk 5 1 0 0) ⟨100, 9, 1⟩ ⟨7, 3, 1⟩ 0 (by simp) rfl

/-- Claim C10 (confirmed): `consume` never checks the positive-request
precondition.  From any bucket state with nonnegative tokens, capacity and
rate and a non-backward clock, a non-positive `tokensRequested` is admitted:
zero leaves the refilled count unchanged and a negative request increases
it by the negated amount, which can push tokens strictly above capacity
(5-capacity bucket reaching 8) until a later refill clamps it back. -/
theorem c10_nonpositive_consume_admitted (b : TokenBucket) (trq : ℚ) (now : ℤ)
    (hcap : 0 ≤ b.capacity) (htok : 0 ≤ b.tokens) (hrate : 0 ≤ b.refillRate)
    (htime : b.lastRefill ≤ now) (htrq : trq ≤ 0) :
    (b.consume trq now).2 = true ∧
    ((b.consume trq now).1).tokens = (b.refill now).tokens - trq ∧
    (trq < 0 → (b.refill now).tokens < ((b.consume trq now).1).tokens) ∧
    ((((TokenBucket.mk 5 1 5 1000).consume (-3) 1000).1).tokens = 8 ∧
     (TokenBucket.mk 5 1 5 1000).capacity < 8 ∧
     (((TokenBucket.mk 5 1 5 1000).consume (-3) 1000).1.refill 1000).tokens = 5) := by
  have hadd : 0 ≤ ((now : ℚ) - (b.lastRefill : ℚ)) / 1000 * b.refillRate := by
    apply mul_nonneg _ hrate
    apply div_nonneg _ (by norm_num)
    have hcast : (b.lastRefill : ℚ) ≤ (now : ℚ) := by exact_mod_cast htime
    linarith
  have h0 : 0 ≤ (b.refill now).tokens := by
    rw [TokenBucket.refill_tokens_eq]
    exact le_min hcap (by linarith)
  have hle : trq ≤ (b.refill now).tokens := le_trans htrq h0
  rw [TokenBucket.consume_of_le _ _ _ hle]
  refine ⟨rfl, rfl, ?_, ?_, ?_, ?_⟩
  · intro hneg
    simp only
    linarith
  · norm_num [TokenBucket.consume, TokenBucket.refill]
  · norm_num
  · norm_num [TokenBucket.consume, TokenBucket.refill]

/-- Witness for C10: consuming -3 from a full 5-capacity bucket. -/
theorem c10_nonpositive_consume_admitted_witness :
    ((TokenBucket.mk 5 1 5 1000).consume (-3) 1000).2 = true ∧
    (((TokenBucket.mk 5 1 5 1000).consume (-3) 1000).1).tokens
      = ((TokenBucket.mk 5 1 5 1000).refill 1000).tokens - (-3) ∧
    ((-3 : ℚ) < 0 → ((TokenBucket.mk 5 1 5 1000).refill 1000).tokens
      < (((TokenBucket.mk 5 1 5 1000).consume (-3) 1000).1).tokens) ∧
    ((((TokenBucket.mk 5 1 5 1000).consume (-3) 1000).1).tokens = 8 ∧
     (TokenBucket.mk 5 1 5 1000).capacity < 8 ∧
     (((TokenBucket.mk 5 1 5 1000).consume (-3) 1000).1.refill 1000).tokens = 5) :=
  c10_nonpositive_consume_admitted (TokenBucket.mk 5 1 5 1000) (-3) 1000
    (by norm_num) (by norm_num) (by norm_num) (by norm_num) (by norm_num)

/-- Witness for C4: requesting 6 tokens from a fresh bucket of capacity 5
and rate 1 is rejected with `retryAfterMillis = ceil((6-5)/1*1000) = 1000`
in both stores. -/
theorem c4_retry_after_formula_witness :
    (MemoryStore.empty.checkLimit "c" ⟨5, 1, 6⟩ 0).1.retryAfter = 1000 ∧
    (luaCheckAndConsume RedisState.empty "k" 5 1 6 0).1.retryAfter = 1000 := by
  have h := c4_retry_after_formula MemoryStore.empty "c" ⟨5, 1, 6⟩ 0 RedisState.empty "k" 5 1 6 0
    (by norm_num [MemoryStore.governingBucket, MemoryStore.getBucket, MemoryStore.empty,
      TokenBucket.create])
    (by norm_num)
  constructor
  · rw [h.2.1 (by norm_num [MemoryStore.checkLimit, MemoryStore.getBucket, MemoryStore.empty,
      TokenBucket.create, TokenBucket.consume, TokenBucket.refill])]
    norm_num [MemoryStore.governingBucket, MemoryStore.getBucket, MemoryStore.empty,
      TokenBucket.create, TokenBucket.refill]
  · rw [h.2.2.2 (by norm_num [luaCheckAndConsume, RedisState.readBucket, RedisState.empty])]
    norm_num [luaRefilledTokens, RedisState.readBucket, RedisState.empty]

/-- Witness for C6: first call with capacity 5, rate 1, request 2 at time 7
on both stores. -/
theorem c6_first_call_witness :
    (MemoryStore.empty.governingBucket "c" ⟨5, 1, 2⟩ 7 = TokenBucket.create 5 1 7) ∧
    ((MemoryStore.empty.checkLimit "c" ⟨5, 1, 2⟩ 7).1.allowed = true ↔ (2 : ℚ) ≤ 5) ∧
    ((2 : ℚ) ≤ 5 →
      (MemoryStore.empty.checkLimit "c" ⟨5, 1, 2⟩ 7).1.remaining = ⌊(5 : ℚ) - 2⌋) ∧
    ((luaCheckAndConsume RedisState.empty "k" 5 1 2 7).1.allowed = 1 ↔ (2 : ℚ) ≤ 5) ∧
    ((2 : ℚ) ≤ 5 →
      (luaCheckAndConsume RedisState.empty "k" 5 1 2 7).1.remaining = ⌊(5 : ℚ) - 2⌋) :=
  c6_first_call MemoryStore.empty "c" ⟨5, 1, 2⟩ 7 RedisState.empty "k" 5 1 2 7
    rfl rfl (by norm_num)

/-- Witness for C7: requesting 10 tokens against capacity 5 in all three
code paths. -/
theorem c7_over_capacity_always_rejected_witness :
    (((TokenBucket.mk 5 1 5 0).consume 10 0).2 = false ∧
      0 < ((((TokenBucket.mk 5 1 5 0).consume 10 0).1).getRetryAfter 10 0).2) ∧
    ((MemoryStore.empty.checkLimit "c" ⟨5, 1, 10⟩ 0).1.allowed = false ∧
      0 < (MemoryStore.empty.checkLimit "c" ⟨5, 1, 10⟩ 0).1.retryAfter) ∧
    ((luaCheckAndConsume RedisState.empty "k" 5 1 10 0).1.allowed = 0 ∧
      0 < (luaCheckAndConsume RedisState.empty "k" 5 1 10 0).1.retryAfter) :=
  c7_over_capacity_always_rejected (TokenBucket.mk 5 1 5 0) 10 0
    MemoryStore.empty "c" ⟨5, 1, 10⟩ 0 RedisState.empty "k" 5 1 10 0
    (by norm_num) (by norm_num)
    (by norm_num [MemoryStore.governingBucket, MemoryStore.getBucket, MemoryStore.empty,
      TokenBucket.create])
    (by norm_num [MemoryStore.governingBucket, MemoryStore.getBucket, MemoryStore.empty,
      TokenBucket.create])
    (by norm_num) (by norm_num)

/-- Witness for C8: reset-then-check on the empty store with capacity 5 and
request 2, and a Redis reset of an absent key. -/
theorem c8_reset_then_check_witness :
    ((MemoryStore.empty.reset "c").checkLimit "c" ⟨5, 1, 2⟩ 0).1
        = (MemoryStore.empty.checkLimit "c" ⟨5, 1, 2⟩ 0).1 ∧
    ((2 : ℚ) ≤ 5 →
      (((MemoryStore.empty.reset "c").checkLimit "c" ⟨5, 1, 2⟩ 0).1.allowed = true ∧
       ((MemoryStore.empty.reset "c").checkLimit "c" ⟨5, 1, 2⟩ 0).1.remaining
          = ⌊(5 : ℚ) - 2⌋)) ∧
    (MemoryStore.empty.buckets "c" = none →
      (MemoryStore.empty.reset "c").buckets "x" = MemoryStore.empty.buckets "x") ∧
    ((RedisStore.reset RedisState.empty "r:" "c").entries ("r:" ++ "c") = none) ∧
    (RedisState.empty.entries ("r:" ++ "c") = none →
      (RedisStore.reset RedisState.empty "r:" "c").entries "y" = RedisState.empty.entries "y") :=
  c8_reset_then_check MemoryStore.empty "c" "x" ⟨5, 1, 2⟩ 0 RedisState.empty "r:" "c" "y"
    (by norm_num)
